import Mathlib

/-!
Verification of the customer-chart script (`chart.py`).

The script synthesizes a labeled dataset of purchase amounts (three customer
segments, lognormal draws with a rare heavy-tail inflation), then renders a
box/strip plot with median annotations and saves it to `chart.png`.

The embedding models amounts as rationals and the pseudo-random generator as
an abstract source `RNG` of draw values: `lognormal mu sigma k` is the k-th
lognormal draw (the parameters the script passes are recorded as arguments),
`heavy k` the k-th outlier coin flip from `rng.choice([0,1], p=[0.97,0.03])`,
and `unif k` the k-th draw of `rng.uniform(3.0, 10.0)`.  `RNG.Valid` captures
the support of those distributions: lognormal draws are strictly positive and
uniform draws lie in [3, 10).
-/

namespace CustomerChart

/-- One row of the synthesized dataframe: `{"segment": seg, "purchase_amount": round(amt, 2)}`. -/
structure Record where
  segment : String
  purchase_amount : ℚ
deriving DecidableEq, Repr

/-- Abstract random source standing for `np.random.default_rng(seed=42)`:
one indexed family per kind of draw the script makes. -/
structure RNG where
  lognormal : ℚ → ℚ → ℕ → ℚ
  heavy : ℕ → Bool
  unif : ℕ → ℚ

/-- Support constraints of the distributions sampled in `chart.py`:
lognormal draws are strictly positive, `rng.uniform(3.0, 10.0)` draws lie in [3, 10). -/
def RNG.Valid (r : RNG) : Prop :=
  (∀ mu sigma k, 0 < r.lognormal mu sigma k) ∧ (∀ k, 3 ≤ r.unif k ∧ r.unif k < 10)

/-- Rounding to 2 decimal places, `round(x, 2)`.  Python rounds binary floats
half-to-even; this rational model rounds half-up, which differs only at exact
half-cent ties (unrepresentable as binary floats), and no claim depends on a tie. -/
def round2 (x : ℚ) : ℚ := ((round (x * 100) : ℤ) : ℚ) / 100

/-- Pre-rounding amount of the k-th sample:
`samples * (1 + heavy_tail * rng.uniform(3.0, 10.0, size=n))` elementwise
(chart.py line 29), where `heavy_tail` is the 0/1 coin from line 28. -/
def segAmount (r : RNG) (mu sigma : ℚ) (k : ℕ) : ℚ :=
  r.lognormal mu sigma k * (1 + (if r.heavy k then (1 : ℚ) else 0) * r.unif k)

/-- The rows appended for one segment (chart.py lines 24-31): `n` records
labeled `seg`, the i-th holding the rounded amount built from global draw
index `off + i` (`off` is how many samples prior segments consumed). -/
def genSegment (r : RNG) (seg : String) (n : ℕ) (mu sigma : ℚ) (off : ℕ) : List Record :=
  (List.range n).map fun i =>
    { segment := seg, purchase_amount := round2 (segAmount r mu sigma (off + i)) }

/-- The full dataframe `df` (chart.py lines 17-33): the loop over the
`segments` dict unrolled in its configuration (insertion) order
`"Low value" (n=550, mu=3.0, sigma=0.6)`, `"Mid value" (450, 4.2, 0.7)`,
`"High value" (200, 5.0, 0.9)`. -/
def genDataset (r : RNG) : List Record :=
  genSegment r "Low value" 550 3 (3/5) 0 ++
    genSegment r "Mid value" 450 (21/5) (7/10) 550 ++
      genSegment r "High value" 200 5 (9/10) 1000

/-- Number of records carrying a given segment label. -/
def countLabel (df : List Record) (s : String) : ℕ :=
  df.countP fun rec => rec.segment == s

/-- A valid random source where every lognormal draw is 1, no sample is
flagged heavy-tail, and every uniform draw is 5. -/
def oneRNG : RNG where
  lognormal := fun _ _ _ => 1
  heavy := fun _ => false
  unif := fun _ => 5

/-- A valid random source whose lognormal draws are all 1/1000 (a tiny value
inside the lognormal support), with no heavy-tail flags. -/
def tinyRNG : RNG where
  lognormal := fun _ _ _ => 1/1000
  heavy := fun _ => false
  unif := fun _ => 5

theorem oneRNG_valid : oneRNG.Valid :=
  ⟨fun _ _ _ => one_pos, fun _ => ⟨by norm_num [oneRNG], by norm_num [oneRNG]⟩⟩

theorem tinyRNG_valid : tinyRNG.Valid :=
  ⟨fun _ _ _ => by norm_num [tinyRNG], fun _ => ⟨by norm_num [tinyRNG], by norm_num [tinyRNG]⟩⟩

theorem genSegment_length (r : RNG) (seg : String) (n : ℕ) (mu sigma : ℚ) (off : ℕ) :
    (genSegment r seg n mu sigma off).length = n := by
  simp [genSegment]

theorem segment_of_mem_genSegment {r : RNG} {seg : String} {n : ℕ} {mu sigma : ℚ} {off : ℕ}
    {x : Record} (hx : x ∈ genSegment r seg n mu sigma off) : x.segment = seg := by
  simp only [genSegment, List.mem_map, List.mem_range] at hx
  obtain ⟨i, _, rfl⟩ := hx
  rfl

theorem countLabel_genSegment (r : RNG) (seg : String) (n : ℕ) (mu sigma : ℚ) (off : ℕ)
    (s : String) : countLabel (genSegment r seg n mu sigma off) s = if seg = s then n else 0 := by
  unfold countLabel
  by_cases h : seg = s
  · subst h
    rw [if_pos rfl]
    calc (genSegment r seg n mu sigma off).countP (fun rec => rec.segment == seg)
        = (genSegment r seg n mu sigma off).length := by
          apply List.countP_eq_length.mpr
          intro a ha
          simp [segment_of_mem_genSegment ha]
      _ = n := genSegment_length ..
  · rw [if_neg h]
    apply List.countP_eq_zero.mpr
    intro a ha
    simp [segment_of_mem_genSegment ha, h]

theorem genDataset_length (r : RNG) : (genDataset r).length = 1200 := by
  simp [genDataset, genSegment_length]

/-! ### Chart renderer embedding

`chart.py` lines 36-81: the figure is 8x8 inches, saved at dpi 64 with
`bbox_inches="tight"`.  The renderer computes, from the full dataframe, the
y-axis limits `(0, df["purchase_amount"].quantile(0.995) * 1.05)` and the
rounded per-segment medians `df.groupby("segment")["purchase_amount"].median().round(2)`,
and draws one text annotation per entry of that (index-sorted) median series at
x-positions 0, 1, 2, ....  The box x-positions themselves come from seaborn's
category order, which for a plain object column is the order of first
appearance in the data.  The strip overlay uses
`df.sample(frac=0.25, random_state=1)`, recorded here by its parameters. -/

/-- Lexicographic comparison of character lists by code point. -/
def charListLe : List Char → List Char → Bool
  | [], _ => true
  | _ :: _, [] => false
  | a :: as, b :: bs =>
    if a.toNat < b.toNat then true
    else if b.toNat < a.toNat then false
    else charListLe as bs

/-- Lexicographic string order, as pandas sorts string group keys. -/
def strLe (a b : String) : Bool := charListLe a.data b.data

/-- Insert a string into a sorted list of strings. -/
def insertStr (x : String) : List String → List String
  | [] => [x]
  | y :: ys => if strLe x y then x :: y :: ys else y :: insertStr x ys

/-- Insertion sort of strings under `strLe` (pandas `groupby` sorts its keys). -/
def sortStr : List String → List String
  | [] => []
  | x :: xs => insertStr x (sortStr xs)

/-- Insert a rational into a sorted list of rationals. -/
def insertQ (x : ℚ) : List ℚ → List ℚ
  | [] => [x]
  | y :: ys => if x ≤ y then x :: y :: ys else y :: insertQ x ys

/-- Insertion sort of rationals, the order statistic basis of
pandas `quantile` and `median`. -/
def sortQ : List ℚ → List ℚ
  | [] => []
  | x :: xs => insertQ x (sortQ xs)

/-- First-appearance order of the distinct values of a string column: the
category order seaborn uses for the box x-positions of a plain object column. -/
def uniqueKeepFirst (l : List String) : List String :=
  l.foldl (fun acc x => if x ∈ acc then acc else acc ++ [x]) []

/-- Pandas `Series.quantile(q)` with its default linear interpolation: on the
sorted values `s` of length `m`, the result is `s[j] + g * (s[j+1] - s[j])`
where `j = ⌊q * (m - 1)⌋` and `g` is the fractional part of `q * (m - 1)`
(0 on an empty series, a convention no claim touches). -/
def quantileLinear (l : List ℚ) (q : ℚ) : ℚ :=
  if (sortQ l).length = 0 then 0
  else
    (sortQ l).getD (⌊q * (((sortQ l).length : ℚ) - 1)⌋).toNat 0 +
      (q * (((sortQ l).length : ℚ) - 1) - (⌊q * (((sortQ l).length : ℚ) - 1)⌋ : ℚ)) *
        ((sortQ l).getD ((⌊q * (((sortQ l).length : ℚ) - 1)⌋).toNat + 1) 0 -
          (sortQ l).getD (⌊q * (((sortQ l).length : ℚ) - 1)⌋).toNat 0)

/-- Pandas `Series.median()`: middle order statistic, or the mean of the two middle
ones for an even count (0 on an empty series, a convention no claim touches). -/
def median (l : List ℚ) : ℚ :=
  let s := sortQ l
  let m := s.length
  if m = 0 then 0
  else if m % 2 = 1 then s.getD (m / 2) 0
  else (s.getD (m / 2 - 1) 0 + s.getD (m / 2) 0) / 2

/-- The `purchase_amount` column restricted to one segment label. -/
def segmentAmounts (df : List Record) (s : String) : List ℚ :=
  (df.filter fun rec => rec.segment == s).map fun rec => rec.purchase_amount

/-- One entry of `df.groupby("segment")["purchase_amount"].median().round(2)`
(chart.py line 72). -/
def segMedian (df : List Record) (s : String) : ℚ :=
  round2 (median (segmentAmounts df s))

/-- One `ax.text` call of the annotation loop (chart.py lines 73-75):
drawn at x-position `xIndex`, displaying `value` in its `Median: $...` text,
at height `y = value * 1.02`. -/
structure Annotation where
  xIndex : ℕ
  value : ℚ
  y : ℚ
deriving DecidableEq, Repr, Inhabited

/-- The observable outcome of the plotting section (chart.py lines 36-75). -/
structure Chart where
  boxOrder : List String
  ylimLower : ℚ
  ylimUpper : ℚ
  annotations : List Annotation
  subsampleFrac : ℚ
  subsampleSeed : ℕ

/-- The renderer (chart.py lines 39-75) as a function of the full dataframe:
box x-positions in first-appearance order of `segment`; y-limits
`(0, quantile(0.995) * 1.05)` over the full `purchase_amount` column
(line 69); one annotation per entry of the sorted-key median series, the
i-th drawn at x-position i (lines 72-75); strip subsample parameters
`frac=0.25, random_state=1` (line 54). -/
def renderChart (df : List Record) : Chart where
  boxOrder := uniqueKeepFirst (df.map fun rec => rec.segment)
  ylimLower := 0
  ylimUpper := quantileLinear (df.map fun rec => rec.purchase_amount) (199/200) * (21/20)
  annotations :=
    ((sortStr (uniqueKeepFirst (df.map fun rec => rec.segment))).enum).map fun p =>
      { xIndex := p.1, value := segMedian df p.2, y := segMedian df p.2 * (51/50) }
  subsampleFrac := 1/4
  subsampleSeed := 1

/-- The `plt.savefig("chart.png", dpi=64, bbox_inches="tight")` call
(chart.py line 80). -/
structure SaveConfig where
  path : String
  dpi : ℕ
  bboxTight : Bool

def savefigCall : SaveConfig := { path := "chart.png", dpi := 64, bboxTight := true }

/-- Figure size `figsize=(8, 8)` from `plt.figure` (chart.py line 36), in inches. -/
def figSizeInches : ℕ × ℕ := (8, 8)

/-- Pixel dimensions of the saved image when they are determined by the
figure size and dpi alone: matplotlib saves `figsize * dpi` pixels only
without `bbox_inches="tight"`; with it, the saved canvas is cropped to the
tight bounding box of the rendered artists, so the result depends on the
rendered content (fonts, labels) and is not fixed by these constants. -/
def fixedPixelDims (c : SaveConfig) (fig : ℕ × ℕ) : Option (ℕ × ℕ) :=
  if c.bboxTight then none else some (fig.1 * c.dpi, fig.2 * c.dpi)

/-! ### Helper lemmas -/

theorem countLabel_append (a b : List Record) (s : String) :
    countLabel (a ++ b) s = countLabel a s + countLabel b s := by
  simp [countLabel, List.countP_append]

theorem mem_genSegment_intro (r : RNG) (seg : String) (n : ℕ) (mu sigma : ℚ) (off : ℕ)
    {i : ℕ} (h : i < n) :
    ({segment := seg, purchase_amount := round2 (segAmount r mu sigma (off + i))} : Record)
      ∈ genSegment r seg n mu sigma off := by
  simp only [genSegment, List.mem_map, List.mem_range]
  exact ⟨i, h, rfl⟩

theorem amount_of_mem_genSegment {r : RNG} {seg : String} {n : ℕ} {mu sigma : ℚ} {off : ℕ}
    {x : Record} (hx : x ∈ genSegment r seg n mu sigma off) :
    ∃ k, x.purchase_amount = round2 (segAmount r mu sigma k) := by
  simp only [genSegment, List.mem_map, List.mem_range] at hx
  obtain ⟨i, _, rfl⟩ := hx
  exact ⟨off + i, rfl⟩

theorem amount_of_mem_genDataset {r : RNG} {x : Record} (hx : x ∈ genDataset r) :
    ∃ mu sigma k, x.purchase_amount = round2 (segAmount r mu sigma k) := by
  unfold genDataset at hx
  rcases List.mem_append.mp hx with h | h
  · rcases List.mem_append.mp h with h2 | h2
    · exact ⟨3, 3/5, amount_of_mem_genSegment h2⟩
    · exact ⟨21/5, 7/10, amount_of_mem_genSegment h2⟩
  · exact ⟨5, 9/10, amount_of_mem_genSegment h⟩

theorem segAmount_pos {r : RNG} (hr : r.Valid) (mu sigma : ℚ) (k : ℕ) :
    0 < segAmount r mu sigma k := by
  unfold segAmount
  apply mul_pos (hr.1 mu sigma k)
  rcases h : r.heavy k with _ | _
  · simp [h]
  · simp only [h, if_true, one_mul]
    nlinarith [(hr.2 k).1]

theorem round2_nonneg {x : ℚ} (hx : 0 ≤ x) : 0 ≤ round2 x := by
  unfold round2
  apply div_nonneg _ (by norm_num)
  have h : (0 : ℤ) ≤ round (x * 100) := by
    rw [round_eq]
    apply Int.floor_nonneg.mpr
    nlinarith
  exact_mod_cast h

theorem round2_pos {x : ℚ} (hx : 1/200 ≤ x) : 0 < round2 x := by
  unfold round2
  apply div_pos _ (by norm_num)
  have h : (1 : ℤ) ≤ round (x * 100) := by
    rw [round_eq]
    apply Int.le_floor.mpr
    push_cast
    nlinarith
  exact_mod_cast lt_of_lt_of_le zero_lt_one h

/-! ### Claim theorems -/

/-- C1: for every configured segment the generated dataframe contains exactly
that segment's configured number of records — 550 "Low value", 450 "Mid
value", 200 "High value" — so its total length is exactly 1200, whatever
values the random source yields. -/
theorem segment_counts_exact (r : RNG) :
    countLabel (genDataset r) "Low value" = 550 ∧
    countLabel (genDataset r) "Mid value" = 450 ∧
    countLabel (genDataset r) "High value" = 200 ∧
    (genDataset r).length = 1200 := by
  refine ⟨?_, ?_, ?_, genDataset_length r⟩ <;>
  · unfold genDataset
    rw [countLabel_append, countLabel_append,
      countLabel_genSegment, countLabel_genSegment, countLabel_genSegment]
    decide

/-- C2 counterexample: strict positivity after rounding does not follow from
the generation code.  For the valid random source whose lognormal draws are
all 1/1000 (a strictly positive value in the lognormal support), the first
generated record's `purchase_amount` is `round(0.001, 2) = 0.00`, which is
not strictly positive. -/
theorem positive_after_rounding_cex :
    tinyRNG.Valid ∧ ¬ (∀ rec ∈ genDataset tinyRNG, 0 < rec.purchase_amount) := by
  refine ⟨tinyRNG_valid, fun hall => ?_⟩
  have hmem := mem_genSegment_intro tinyRNG "Low value" 550 3 (3/5) 0 (show 0 < 550 by decide)
  have hmem2 : (⟨"Low value", round2 (segAmount tinyRNG 3 (3/5) (0 + 0))⟩ : Record)
      ∈ genDataset tinyRNG := by
    unfold genDataset
    exact List.mem_append.mpr (Or.inl (List.mem_append.mpr (Or.inl hmem)))
  have hpos := hall _ hmem2
  rw [show segAmount tinyRNG 3 (3/5) (0 + 0) = 1/1000 from by
      norm_num [segAmount, tinyRNG]] at hpos
  rw [show round2 ((1 : ℚ)/1000) = 0 from by
      unfold round2; rw [round_eq]; norm_num] at hpos
  exact lt_irrefl 0 hpos

/-- C2 amended: for every valid random source, every pre-rounding amount is
strictly positive; every stored (rounded to 2 decimals) `purchase_amount` is
nonnegative, and it is strictly positive whenever the pre-rounding amount is
at least half a cent (1/200) — amounts below half a cent round to 0.00. -/
theorem purchase_amount_positivity (r : RNG) (hr : r.Valid) :
    (∀ mu sigma k, 0 < segAmount r mu sigma k) ∧
    (∀ rec ∈ genDataset r, 0 ≤ rec.purchase_amount) ∧
    (∀ mu sigma k, 1/200 ≤ segAmount r mu sigma k → 0 < round2 (segAmount r mu sigma k)) := by
  refine ⟨segAmount_pos hr, ?_, fun mu sigma k h => round2_pos h⟩
  intro rec hrec
  obtain ⟨mu, sigma, k, heq⟩ := amount_of_mem_genDataset hrec
  rw [heq]
  exact round2_nonneg (le_of_lt (segAmount_pos hr mu sigma k))

theorem purchase_amount_positivity_witness : 0 < segAmount oneRNG 3 (3/5) 0 :=
  (purchase_amount_positivity oneRNG oneRNG_valid).1 3 (3/5) 0

/-- C3: for any valid random source, a sample flagged heavy-tail is
multiplied by `1 + u` with `u = rng.uniform(3.0, 10.0)` in [3, 10), so its
pre-rounding amount lies between 4 and 11 times the base lognormal draw;
a sample not flagged is exactly its base lognormal draw before rounding. -/
theorem heavy_tail_factor (r : RNG) (hr : r.Valid) (mu sigma : ℚ) (k : ℕ) :
    (r.heavy k = true →
      4 * r.lognormal mu sigma k ≤ segAmount r mu sigma k ∧
        segAmount r mu sigma k ≤ 11 * r.lognormal mu sigma k) ∧
    (r.heavy k = false → segAmount r mu sigma k = r.lognormal mu sigma k) := by
  have hb := hr.1 mu sigma k
  have hu := hr.2 k
  constructor
  · intro h
    unfold segAmount
    rw [h]
    simp only [if_true, one_mul]
    constructor
    · nlinarith [mul_nonneg hb.le (show (0 : ℚ) ≤ r.unif k - 3 by linarith [hu.1])]
    · nlinarith [mul_nonneg hb.le (show (0 : ℚ) ≤ 10 - r.unif k by linarith [hu.2])]
  · intro h
    unfold segAmount
    rw [h]
    simp

theorem heavy_tail_factor_witness :
    segAmount oneRNG 3 (3/5) 0 = oneRNG.lognormal 3 (3/5) 0 :=
  (heavy_tail_factor oneRNG oneRNG_valid 3 (3/5) 0).2 rfl

/-- A valid random source agreeing with `oneRNG` on every draw the script
consumes (indices below 1200) but differing beyond them. -/
def oneRNGvar : RNG where
  lognormal := fun _ _ k => if k < 1200 then 1 else 2
  heavy := fun _ => false
  unif := fun k => if k < 1200 then 5 else 7

/-- C4: determinism — the generated data is a function of the values the
seeded generator produces alone: two runs whose random sources agree on the
draws the script consumes (indices below 1200) yield identical sequences of
(segment, purchase_amount) records.  With both seeds fixed (42 for
generation, 1 for the subsample), the consumed draws are the same in every
run, so two runs produce identical data. -/
theorem dataset_deterministic (r₁ r₂ : RNG)
    (hl : ∀ mu sigma k, k < 1200 → r₁.lognormal mu sigma k = r₂.lognormal mu sigma k)
    (hh : ∀ k, k < 1200 → r₁.heavy k = r₂.heavy k)
    (hu : ∀ k, k < 1200 → r₁.unif k = r₂.unif k) :
    genDataset r₁ = genDataset r₂ := by
  have hseg : ∀ (seg : String) (n off : ℕ) (mu sigma : ℚ), off + n ≤ 1200 →
      genSegment r₁ seg n mu sigma off = genSegment r₂ seg n mu sigma off := by
    intro seg n off mu sigma hbound
    unfold genSegment
    apply List.map_congr_left
    intro i hi
    have hik : off + i < 1200 := by
      have := List.mem_range.mp hi
      omega
    have hamt : segAmount r₁ mu sigma (off + i) = segAmount r₂ mu sigma (off + i) := by
      unfold segAmount
      rw [hl _ _ _ hik, hh _ hik, hu _ hik]
    rw [hamt]
  unfold genDataset
  rw [hseg _ _ _ _ _ (by norm_num), hseg _ _ _ _ _ (by norm_num),
    hseg _ _ _ _ _ (by norm_num)]

theorem dataset_deterministic_witness : genDataset oneRNG = genDataset oneRNGvar :=
  dataset_deterministic oneRNG oneRNGvar
    (fun _ _ k hk => by simp [oneRNG, oneRNGvar, hk])
    (fun _ _ => rfl)
    (fun k hk => by simp [oneRNG, oneRNGvar, hk])

theorem insertQ_length (x : ℚ) (l : List ℚ) : (insertQ x l).length = l.length + 1 := by
  induction l with
  | nil => rfl
  | cons y ys ih =>
    unfold insertQ
    by_cases h : x ≤ y
    · simp [h]
    · simp [h, ih]

theorem sortQ_length (l : List ℚ) : (sortQ l).length = l.length := by
  induction l with
  | nil => rfl
  | cons y ys ih => simp [sortQ, insertQ_length, ih]

theorem genSegment_getElem (r : RNG) (seg : String) (n : ℕ) (mu sigma : ℚ) (off : ℕ)
    (i : ℕ) (h : i < n) :
    (genSegment r seg n mu sigma off)[i]? =
      some ⟨seg, round2 (segAmount r mu sigma (off + i))⟩ := by
  unfold genSegment
  rw [List.getElem?_map, List.getElem?_range h]
  rfl

/-- C7: the y-axis upper bound is 1.05 times the 99.5th percentile of
`purchase_amount` over the full dataframe: on any 1200-record dataframe
(the generated one in particular — no subsample enters this computation),
it equals 1.05 times the linear interpolation 0.995 of the way from the
1193rd to the 1194th sorted amount (0-based), since 0.995 * 1199 = 1193.005. -/
theorem ylim_upper_full_quantile (df : List Record) (h : df.length = 1200) :
    (renderChart df).ylimUpper =
      ((sortQ (df.map fun rec => rec.purchase_amount)).getD 1193 0 +
        (1/200) * ((sortQ (df.map fun rec => rec.purchase_amount)).getD 1194 0 -
          (sortQ (df.map fun rec => rec.purchase_amount)).getD 1193 0)) * (21/20) := by
  have hlen : (sortQ (df.map fun rec => rec.purchase_amount)).length = 1200 := by
    rw [sortQ_length, List.length_map, h]
  have hfl : (⌊(199 : ℚ)/200 * (((1200 : ℕ) : ℚ) - 1)⌋ : ℤ) = 1193 := by norm_num
  have hg : (199 : ℚ)/200 * (((1200 : ℕ) : ℚ) - 1) - ((1193 : ℤ) : ℚ) = 1/200 := by norm_num
  simp only [renderChart]
  unfold quantileLinear
  rw [hlen, if_neg (by norm_num), hfl, hg]
  rw [show ((1193 : ℤ).toNat) = 1193 from rfl]

/-- A concrete 1200-record dataframe. -/
def witDf : List Record := (List.range 1200).map fun i : ℕ => ⟨"Low value", (i : ℚ)⟩

theorem ylim_upper_full_quantile_witness :
    (renderChart witDf).ylimUpper =
      ((sortQ (witDf.map fun rec => rec.purchase_amount)).getD 1193 0 +
        (1/200) * ((sortQ (witDf.map fun rec => rec.purchase_amount)).getD 1194 0 -
          (sortQ (witDf.map fun rec => rec.purchase_amount)).getD 1193 0)) * (21/20) :=
  ylim_upper_full_quantile witDf (by unfold witDf; rw [List.length_map, List.length_range])

/-- C8: the dataframe is in segment-block order with no global shuffle —
record `i` (0-based) is a "Low value" record for `i < 550`, a "Mid value"
record for `550 ≤ i < 1000`, and a "High value" record for `1000 ≤ i < 1200`,
and within each block the i-th record carries the rounded amount built from
the i-th consumed draw, i.e. records appear in the order the samples were
drawn. -/
theorem dataset_block_order (r : RNG) (i : ℕ) (h : i < 1200) :
    (genDataset r)[i]? = some (
      if i < 550 then ⟨"Low value", round2 (segAmount r 3 (3/5) i)⟩
      else if i < 1000 then ⟨"Mid value", round2 (segAmount r (21/5) (7/10) i)⟩
      else ⟨"High value", round2 (segAmount r 5 (9/10) i)⟩) := by
  unfold genDataset
  by_cases h1 : i < 550
  · rw [List.getElem?_append, if_pos (by
      rw [List.length_append, genSegment_length, genSegment_length]; omega)]
    rw [List.getElem?_append, if_pos (by rw [genSegment_length]; omega)]
    rw [genSegment_getElem r _ _ _ _ _ i h1, if_pos h1]
    simp
  · by_cases h2 : i < 1000
    · rw [List.getElem?_append, if_pos (by
        rw [List.length_append, genSegment_length, genSegment_length]; omega)]
      rw [List.getElem?_append, if_neg (by rw [genSegment_length]; omega)]
      rw [genSegment_length]
      rw [genSegment_getElem r _ _ _ _ _ (i - 550) (by omega)]
      rw [if_neg h1, if_pos h2]
      have : 550 + (i - 550) = i := by omega
      rw [this]
    · rw [List.getElem?_append, if_neg (by
        rw [List.length_append, genSegment_length, genSegment_length]; omega)]
      rw [List.length_append, genSegment_length, genSegment_length]
      rw [genSegment_getElem r _ _ _ _ _ (i - 1000) (by omega)]
      rw [if_neg h1, if_neg h2]
      have : 1000 + (i - 1000) = i := by omega
      rw [this]

theorem dataset_block_order_witness :
    (genDataset oneRNG)[600]? = some (
      if 600 < 550 then ⟨"Low value", round2 (segAmount oneRNG 3 (3/5) 600)⟩
      else if 600 < 1000 then ⟨"Mid value", round2 (segAmount oneRNG (21/5) (7/10) 600)⟩
      else ⟨"High value", round2 (segAmount oneRNG 5 (9/10) 600)⟩) :=
  dataset_block_order oneRNG 600 (by decide)

/-- C9 (code bug evaluation): the save call targets the fixed relative path
"chart.png" and the figure constants would give 8 * 64 = 512 pixels per side,
but the call passes `bbox_inches="tight"`, under which matplotlib crops the
saved canvas to the rendered artists' bounding box, so the output's pixel
dimensions are not fixed by figsize and dpi (and in particular not the fixed
512 x 512 square the code comments announce). -/
theorem savefig_not_fixed_512 :
    savefigCall.path = "chart.png" ∧
    figSizeInches.1 * savefigCall.dpi = 512 ∧
    figSizeInches.2 * savefigCall.dpi = 512 ∧
    savefigCall.bboxTight = true ∧
    fixedPixelDims savefigCall figSizeInches = none :=
  ⟨rfl, rfl, rfl, rfl, rfl⟩

/-- C10: the y-axis lower bound is the constant 0 whatever the data, so every
strictly positive purchase amount lies strictly above the bottom of the axis
(no positive amount is clipped at the bottom). -/
theorem ylim_lower_zero (df : List Record) :
    (renderChart df).ylimLower = 0 ∧
    ∀ rec ∈ df, 0 < rec.purchase_amount →
      (renderChart df).ylimLower < rec.purchase_amount :=
  ⟨rfl, fun _ _ hpos => hpos⟩

/-- A minimal dataframe with the three configured segment labels in their
generation (first-appearance) order and pairwise distinct medians. -/
def df0 : List Record := [⟨"Low value", 1⟩, ⟨"Mid value", 2⟩, ⟨"High value", 3⟩]

theorem ylim_lower_zero_witness :
    (renderChart df0).ylimLower < (⟨"Low value", 1⟩ : Record).purchase_amount :=
  (ylim_lower_zero df0).2 ⟨"Low value", 1⟩ (by unfold df0; exact List.mem_cons_self _ _)
    (by norm_num : (0 : ℚ) < 1)

/-- C5 (code bug evaluation): on the dataframe with rows Low:1, Mid:2,
High:3, the annotation drawn at box x-position 0 displays the value 3 — the
median of "High value", the alphabetically first groupby key — while the box
plotted at x-position 0 is "Low value", whose median is 1.  The annotation
loop walks the index-sorted median series (High, Low, Mid) while the box
x-positions follow first-appearance order (Low, Mid, High), so the
annotation at a box's x-position does not report that box's median. -/
theorem annotation_box_mismatch :
    ((renderChart df0).annotations.getD 0 default).xIndex = 0 ∧
    ((renderChart df0).annotations.getD 0 default).value = 3 ∧
    (renderChart df0).boxOrder.getD 0 "" = "Low value" ∧
    segMedian df0 "Low value" = 1 ∧
    ((renderChart df0).annotations.getD 0 default).value ≠ segMedian df0 "Low value" := by
  have hmap : df0.map (fun rec => rec.segment) = ["Low value", "Mid value", "High value"] := rfl
  have huniq : uniqueKeepFirst ["Low value", "Mid value", "High value"] =
      ["Low value", "Mid value", "High value"] := by decide
  have hsort : sortStr ["Low value", "Mid value", "High value"] =
      ["High value", "Low value", "Mid value"] := by decide
  have hmedL : segMedian df0 "Low value" = 1 := by
    unfold segMedian
    rw [show median (segmentAmounts df0 "Low value") = 1 from rfl]
    unfold round2
    rw [round_eq]
    norm_num
  have hmedH : segMedian df0 "High value" = 3 := by
    unfold segMedian
    rw [show median (segmentAmounts df0 "High value") = 3 from rfl]
    unfold round2
    rw [round_eq]
    norm_num
  have hann : (renderChart df0).annotations =
      [⟨0, segMedian df0 "High value", segMedian df0 "High value" * (51/50)⟩,
        ⟨1, segMedian df0 "Low value", segMedian df0 "Low value" * (51/50)⟩,
        ⟨2, segMedian df0 "Mid value", segMedian df0 "Mid value" * (51/50)⟩] := by
    simp only [renderChart]
    rw [hmap, huniq, hsort]
    rfl
  have hbox : (renderChart df0).boxOrder = ["Low value", "Mid value", "High value"] := by
    simp only [renderChart]
    rw [hmap, huniq]
  refine ⟨?_, ?_, ?_, hmedL, ?_⟩
  · rw [hann]
    rfl
  · rw [hann]
    exact hmedH
  · rw [hbox]
    rfl
  · rw [hann, hmedL]
    show segMedian df0 "High value" ≠ 1
    rw [hmedH]
    norm_num

end CustomerChart
